import Mathlib

/-!
Verification of the `cassandra_verify` Ansible module
(`plugins/modules/cassandra_verify.py`).

The module builds a `nodetool verify` command line from its parameters,
runs it, and reports a normalized result.  We embed the three pieces of
the source shallowly:

* `NodeToolCmd` / `NodeToolCmd.nodetool_cmd` — the generic command builder
  (class `NodeToolCmd`, method `nodetool_cmd`);
* `buildVerifyCmd` — the sub-command assembly done in
  `NodeToolCommand.__init__`;
* `mainResult` — the result reporting at the end of `main`.

Machine strings are Lean `String`s (Python `str` is a sequence of code
points, matching `String.data : List Char`).  Python builtins used by the
source are embedded explicitly: `"{0}".format` on an optional string is
`pyFormatOptStr` (rendering `None` as `"None"`), `" ".join` is `pyJoin`,
`str.strip()` is `pyStrip` (ASCII whitespace), `p.endswith('/')` is
`endsWithSlash`.
-/

/-- The space character, written via its code point. -/
def spc : Char := Char.ofNat 32

/-- The single-quote character `'`. -/
def sQuoteC : Char := Char.ofNat 39

/-- The single-quote as a one-character string. -/
def sQuote : String := String.mk [sQuoteC]

/-- The path separator `/`. -/
def slash : Char := Char.ofNat 47

/-- Whitespace as recognized by Python's `str.strip()` (ASCII part):
space, tab, newline, carriage return, vertical tab, form feed. -/
def isPySpace (c : Char) : Bool :=
  c = spc || c = Char.ofNat 9 || c = Char.ofNat 10 || c = Char.ofNat 13 ||
    c = Char.ofNat 11 || c = Char.ofNat 12

/-- `str.strip()` on the underlying character list: drop leading and
trailing whitespace. -/
def pyStripData (l : List Char) : List Char :=
  ((l.dropWhile isPySpace).reverse.dropWhile isPySpace).reverse

/-- Python's `str.strip()` with no arguments (ASCII whitespace). -/
def pyStrip (s : String) : String := String.mk (pyStripData s.data)

/-- `"{0}".format(x)` for an `Optional[str]` value `x`: Python renders
`None` as the string `"None"`. -/
def pyFormatOptStr : Option String → String
  | Option.none => "None"
  | Option.some s => s

/-- Python's `sep.join(parts)`. -/
def pyJoin (sep : String) : List String → String
  | [] => ""
  | [x] => x
  | x :: xs => x ++ sep ++ pyJoin sep xs

/-- Python's `p.endswith('/')`: the last character is `/`. -/
def endsWithSlash (p : String) : Bool := p.data.getLast? == Option.some slash

/-- The `table` module parameter has Ansible type `raw`; the documented
forms are absent, a single table name, or a list of table names. -/
inductive TableParam where
  | none : TableParam
  | str (s : String) : TableParam
  | list (ts : List String) : TableParam

/-- The module parameters as parsed by `AnsibleModule(argument_spec=...)`
in `main` (source lines 155-166). -/
structure ModuleParams where
  host : Option String
  port : Int
  password : Option String
  password_file : Option String
  username : Option String
  keyspace : Option String
  table : TableParam
  extended : Bool
  nodetool_path : Option String

/-- The state of a `NodeToolCmd` instance after `__init__`
(source lines 90-99): plain copies of the connection parameters, with the
`host is None` fallback already applied. -/
structure NodeToolCmd where
  host : String
  port : Int
  password : Option String
  password_file : Option String
  username : Option String
  nodetool_path : Option String

/-- `NodeToolCmd.__init__(self, module)` (source lines 90-99): copy the
connection parameters; if `host` is `None`, replace it by
`socket.getfqdn()`, whose value is passed in as `fqdn`. -/
def NodeToolCmd.init (p : ModuleParams) (fqdn : String) : NodeToolCmd :=
  { host :=
      match p.host with
      | Option.none => fqdn
      | Option.some h => h
    port := p.port
    password := p.password
    password_file := p.password_file
    username := p.username
    nodetool_path := p.nodetool_path }

/-- The path normalization at the start of `nodetool_cmd`
(source lines 105-109): if `nodetool_path` is not `None`, non-empty and
does not end with `/`, append `/`; in every other case the attribute is
reset to the empty string. -/
def normalizedPath : Option String → String
  | Option.none => ""
  | Option.some p =>
    if 0 < p.data.length ∧ endsWithSlash p = false then p ++ "/" else ""

/-- `NodeToolCmd.nodetool_cmd(self, sub_command)` (source lines 104-121),
up to the point where the finished string is handed to
`execute_command`: build
`"{path}nodetool --host {host} --port {port}"`, append
`" --username {username}"` when `username` is set, then either
`" --password-file {password_file}"` or `" --password '{password}'"`,
and finally the sub-command. -/
def NodeToolCmd.nodetool_cmd (s : NodeToolCmd) (sub_command : String) : String :=
  let path := normalizedPath s.nodetool_path
  let cmd := path ++ "nodetool --host " ++ s.host ++ " --port " ++ toString s.port
  let cmd :=
    match s.username with
    | Option.some u =>
      let cmd := cmd ++ " --username " ++ u
      match s.password_file with
      | Option.some f => cmd ++ " --password-file " ++ f
      | Option.none => cmd ++ " --password " ++ sQuote ++ pyFormatOptStr s.password ++ sQuote
    | Option.none => cmd
  cmd ++ " " ++ sub_command

/-- The sub-command assembly of `NodeToolCommand.__init__`
(source lines 134-148): starting from `cmd` (the literal `"verify"` in
`main`), append `" -e"` when `extended`, the keyspace when set, and the
table name or the space-joined table names when set. -/
def buildVerifyCmd (p : ModuleParams) (cmd : String) : String :=
  let cmd := if p.extended then cmd ++ " -e" else cmd
  let cmd :=
    match p.keyspace with
    | Option.some k => cmd ++ " " ++ k
    | Option.none => cmd
  match p.table with
  | TableParam.none => cmd
  | TableParam.str s => cmd ++ " " ++ s
  | TableParam.list ts => cmd ++ " " ++ pyJoin " " ts

/-- The result structure reported by `main` via `module.exit_json`;
optional fields model keys that may be absent from the dict. -/
structure VerifyResult where
  stdout : Option String
  stderr : Option String
  rc : Option Int
  changed : Bool
  msg : String

/-- The reporting logic at the end of `main` (source lines 177-193):
strip `out` and `err`, include each only when non-empty, then branch on
the return code. -/
def mainResult (rc : Int) (out err : String) : VerifyResult :=
  let out := pyStrip out
  let err := pyStrip err
  let stdoutF := if out.data = [] then Option.none else Option.some out
  let stderrF := if err.data = [] then Option.none else Option.some err
  if rc = 0 then
    { stdout := stdoutF, stderr := stderrF, rc := Option.none, changed := true
      msg := "nodetool verify executed successfully" }
  else
    { stdout := stdoutF, stderr := stderrF, rc := Option.some rc, changed := false
      msg := "nodetool verify did not execute successfully" }

/-- Split a character list on (single) spaces.  This is the notion of
"the command line contains the flag `X`": `X` occurs as one of the
space-separated words of the command. -/
def splitSp : List Char → List (List Char)
  | [] => [[]]
  | c :: cs =>
    if c = spc then [] :: splitSp cs
    else
      match splitSp cs with
      | [] => [[c]]
      | w :: ws => (c :: w) :: ws

/-- Join word groups with single spaces in front of a trailing rest. -/
def joinSp : List (List Char) → List Char → List Char
  | [], w => w
  | x :: xs, w => x ++ spc :: joinSp xs w

lemma splitSp_ne_nil (l : List Char) : splitSp l ≠ [] := by
  induction l with
  | nil => simp [splitSp]
  | cons c cs ih =>
    by_cases h : c = spc
    · simp [splitSp, h]
    · cases hs : splitSp cs with
      | nil => exact absurd hs ih
      | cons w ws => simp [splitSp, h, hs]

lemma splitSp_sfree (x : List Char) (hx : ∀ c ∈ x, c ≠ spc) : splitSp x = [x] := by
  induction x with
  | nil => rfl
  | cons c cs ih =>
    have hc : c ≠ spc := hx c (by simp)
    have hcs := ih (fun d hd => hx d (by simp [hd]))
    simp [splitSp, hc, hcs]

lemma splitSp_append (x y : List Char) (hx : ∀ c ∈ x, c ≠ spc) :
    splitSp (x ++ spc :: y) = x :: splitSp y := by
  induction x with
  | nil => simp [splitSp]
  | cons c cs ih =>
    have hc : c ≠ spc := hx c (by simp)
    have hcs := ih (fun d hd => hx d (by simp [hd]))
    simp [splitSp, hc, hcs]

lemma splitSp_joinSp (parts : List (List Char)) (w : List Char)
    (h : ∀ x ∈ parts, ∀ c ∈ x, c ≠ spc) :
    splitSp (joinSp parts w) = parts ++ splitSp w := by
  induction parts with
  | nil => rfl
  | cons x xs ih =>
    simp only [joinSp]
    rw [splitSp_append x _ (h x (by simp)), ih (fun y hy => h y (by simp [hy]))]
    rfl

lemma dataNodHostSplit :
    "nodetool --host ".data = "nodetool".data ++ spc :: ("--host".data ++ [spc]) := by decide

lemma dataPortSplit : " --port ".data = spc :: ("--port".data ++ [spc]) := by decide

lemma dataUserSplit : " --username ".data = spc :: ("--username".data ++ [spc]) := by decide

lemma dataPwfSplit :
    " --password-file ".data = spc :: ("--password-file".data ++ [spc]) := by decide

lemma dataPwSplit : " --password ".data = spc :: ("--password".data ++ [spc]) := by decide

lemma dataSp : " ".data = [spc] := by decide

lemma dataSlash : "/".data = [slash] := by decide

lemma dataSQuote : sQuote.data = [sQuoteC] := rfl

lemma dataNodHost : "nodetool --host ".data = "nodetool".data ++ " --host ".data := by decide

/-- Shape of the built command when `username` and `password_file` are both
set: the words are the path-prefixed binary, `--host`, the host, `--port`,
the port, `--username`, the user, `--password-file`, the file, then the
sub-command. -/
lemma cmd_data_pf (s : NodeToolCmd) (u f sub : String) (hu : s.username = Option.some u)
    (hf : s.password_file = Option.some f) :
    (s.nodetool_cmd sub).data =
      joinSp [(normalizedPath s.nodetool_path).data ++ "nodetool".data, "--host".data,
        s.host.data, "--port".data, (toString s.port).data, "--username".data, u.data,
        "--password-file".data, f.data] sub.data := by
  simp [NodeToolCmd.nodetool_cmd, hu, hf, joinSp, String.data_append, dataNodHostSplit,
    dataPortSplit, dataUserSplit, dataPwfSplit, dataSp, List.append_assoc] <;> decide

/-- Shape of the built command when `username` is unset: no
authentication-related words at all. -/
lemma cmd_data_nouser (s : NodeToolCmd) (sub : String) (hu : s.username = Option.none) :
    (s.nodetool_cmd sub).data =
      joinSp [(normalizedPath s.nodetool_path).data ++ "nodetool".data, "--host".data,
        s.host.data, "--port".data, (toString s.port).data] sub.data := by
  simp [NodeToolCmd.nodetool_cmd, hu, joinSp, String.data_append, dataNodHostSplit,
    dataPortSplit, dataSp, List.append_assoc] <;> decide

/-- A word that starts with an arbitrary path prefix and ends in the
binary name `nodetool` is never a word ending in another letter. -/
lemma append_nodetool_ne (P t : List Char) (h : t.getLast? ≠ Option.some (Char.ofNat 108)) :
    P ++ "nodetool".data ≠ t := by
  intro he
  apply h
  rw [← he, List.getLast?_append]
  rfl

/-- The words of the built command when `username` and `password_file`
are both set and no parameter value contains a space. -/
lemma tokens_pf (s : NodeToolCmd) (u f sub : String) (hu : s.username = Option.some u)
    (hf : s.password_file = Option.some f)
    (hpath : ∀ c ∈ (normalizedPath s.nodetool_path).data, c ≠ spc)
    (hhost : ∀ c ∈ s.host.data, c ≠ spc)
    (hport : ∀ c ∈ (toString s.port).data, c ≠ spc)
    (hus : ∀ c ∈ u.data, c ≠ spc)
    (hfs : ∀ c ∈ f.data, c ≠ spc) :
    splitSp (s.nodetool_cmd sub).data =
      ((normalizedPath s.nodetool_path).data ++ "nodetool".data) :: "--host".data ::
        s.host.data :: "--port".data :: (toString s.port).data :: "--username".data ::
        u.data :: "--password-file".data :: f.data :: splitSp sub.data := by
  have hparts : ∀ x ∈ [(normalizedPath s.nodetool_path).data ++ "nodetool".data,
      "--host".data, s.host.data, "--port".data, (toString s.port).data,
      "--username".data, u.data, "--password-file".data, f.data],
      ∀ c ∈ x, c ≠ spc := by
    intro x hx
    simp only [List.mem_cons, List.not_mem_nil, or_false] at hx
    rcases hx with h | h | h | h | h | h | h | h | h
    · subst h
      intro c hc
      rcases List.mem_append.1 hc with h1 | h1
      · exact hpath c h1
      · exact (by decide : ∀ c ∈ "nodetool".data, c ≠ spc) c h1
    · subst h; decide
    · subst h; exact hhost
    · subst h; decide
    · subst h; exact hport
    · subst h; decide
    · subst h; exact hus
    · subst h; decide
    · subst h; exact hfs
  rw [cmd_data_pf s u f sub hu hf, splitSp_joinSp _ _ hparts]
  rfl

/-- The words of the built command when `username` is unset and no
parameter value contains a space. -/
lemma tokens_nouser (s : NodeToolCmd) (sub : String) (hu : s.username = Option.none)
    (hpath : ∀ c ∈ (normalizedPath s.nodetool_path).data, c ≠ spc)
    (hhost : ∀ c ∈ s.host.data, c ≠ spc)
    (hport : ∀ c ∈ (toString s.port).data, c ≠ spc) :
    splitSp (s.nodetool_cmd sub).data =
      ((normalizedPath s.nodetool_path).data ++ "nodetool".data) :: "--host".data ::
        s.host.data :: "--port".data :: (toString s.port).data :: splitSp sub.data := by
  have hparts : ∀ x ∈ [(normalizedPath s.nodetool_path).data ++ "nodetool".data,
      "--host".data, s.host.data, "--port".data, (toString s.port).data],
      ∀ c ∈ x, c ≠ spc := by
    intro x hx
    simp only [List.mem_cons, List.not_mem_nil, or_false] at hx
    rcases hx with h | h | h | h | h
    · subst h
      intro c hc
      rcases List.mem_append.1 hc with h1 | h1
      · exact hpath c h1
      · exact (by decide : ∀ c ∈ "nodetool".data, c ≠ spc) c h1
    · subst h; decide
    · subst h; exact hhost
    · subst h; decide
    · subst h; exact hport
  rw [cmd_data_nouser s sub hu, splitSp_joinSp _ _ hparts]
  rfl

/-- C2: with `username` and `password_file` both set (and any `password`
value), the rendered command contains the word `--password-file`
immediately followed by the `password_file` value, and `--password` is
not among its words.  The hypotheses rule out parameter values that
themselves contain spaces or are the literal word `--password`. -/
theorem password_file_precedence (s : NodeToolCmd) (u f sub : String)
    (hu : s.username = Option.some u) (hf : s.password_file = Option.some f)
    (hpath : ∀ c ∈ (normalizedPath s.nodetool_path).data, c ≠ spc)
    (hhost : ∀ c ∈ s.host.data, c ≠ spc)
    (hport : ∀ c ∈ (toString s.port).data, c ≠ spc)
    (hus : ∀ c ∈ u.data, c ≠ spc)
    (hfs : ∀ c ∈ f.data, c ≠ spc)
    (hhne : s.host.data ≠ "--password".data)
    (hpne : (toString s.port).data ≠ "--password".data)
    (hune : u.data ≠ "--password".data)
    (hfne : f.data ≠ "--password".data)
    (hsub : "--password".data ∉ splitSp sub.data) :
    ["--password-file".data, f.data] <:+: splitSp (s.nodetool_cmd sub).data ∧
      "--password".data ∉ splitSp (s.nodetool_cmd sub).data := by
  rw [tokens_pf s u f sub hu hf hpath hhost hport hus hfs]
  constructor
  · exact ⟨[(normalizedPath s.nodetool_path).data ++ "nodetool".data, "--host".data,
      s.host.data, "--port".data, (toString s.port).data, "--username".data, u.data],
      splitSp sub.data, by simp⟩
  · intro hmem
    simp only [List.mem_cons] at hmem
    rcases hmem with h | h | h | h | h | h | h | h | h | h
    · exact append_nodetool_ne _ _ (by decide) h.symm
    · exact absurd h (by decide)
    · exact hhne h.symm
    · exact absurd h (by decide)
    · exact hpne h.symm
    · exact absurd h (by decide)
    · exact hune h.symm
    · exact absurd h (by decide)
    · exact hfne h.symm
    · exact hsub h

theorem password_file_precedence_witness :
    ["--password-file".data, "pwfile.txt".data] <:+:
        splitSp ((NodeToolCmd.mk "localhost" 7199 (Option.some "secret")
          (Option.some "pwfile.txt") (Option.some "admin")
          Option.none).nodetool_cmd "verify").data ∧
      "--password".data ∉
        splitSp ((NodeToolCmd.mk "localhost" 7199 (Option.some "secret")
          (Option.some "pwfile.txt") (Option.some "admin")
          Option.none).nodetool_cmd "verify").data :=
  password_file_precedence _ "admin" "pwfile.txt" "verify" rfl rfl (by decide) (by decide)
    (by decide) (by decide) (by decide) (by decide) (by decide) (by decide) (by decide)
    (by decide)

/-- C10: with `username` unset, none of `--username`, `--password`,
`--password-file` occurs among the words of the rendered command, even
when `password` or `password_file` is set. -/
theorem no_auth_flags_without_username (s : NodeToolCmd) (sub : String)
    (hu : s.username = Option.none)
    (hpath : ∀ c ∈ (normalizedPath s.nodetool_path).data, c ≠ spc)
    (hhost : ∀ c ∈ s.host.data, c ≠ spc)
    (hport : ∀ c ∈ (toString s.port).data, c ≠ spc)
    (hh1 : s.host.data ≠ "--username".data)
    (hh2 : s.host.data ≠ "--password".data)
    (hh3 : s.host.data ≠ "--password-file".data)
    (hp1 : (toString s.port).data ≠ "--username".data)
    (hp2 : (toString s.port).data ≠ "--password".data)
    (hp3 : (toString s.port).data ≠ "--password-file".data)
    (hs1 : "--username".data ∉ splitSp sub.data)
    (hs2 : "--password".data ∉ splitSp sub.data)
    (hs3 : "--password-file".data ∉ splitSp sub.data) :
    "--username".data ∉ splitSp (s.nodetool_cmd sub).data ∧
      "--password".data ∉ splitSp (s.nodetool_cmd sub).data ∧
      "--password-file".data ∉ splitSp (s.nodetool_cmd sub).data := by
  rw [tokens_nouser s sub hu hpath hhost hport]
  refine ⟨?_, ?_, ?_⟩
  · intro hmem
    simp only [List.mem_cons] at hmem
    rcases hmem with h | h | h | h | h | h
    · exact append_nodetool_ne _ _ (by decide) h.symm
    · exact absurd h (by decide)
    · exact hh1 h.symm
    · exact absurd h (by decide)
    · exact hp1 h.symm
    · exact hs1 h
  · intro hmem
    simp only [List.mem_cons] at hmem
    rcases hmem with h | h | h | h | h | h
    · exact append_nodetool_ne _ _ (by decide) h.symm
    · exact absurd h (by decide)
    · exact hh2 h.symm
    · exact absurd h (by decide)
    · exact hp2 h.symm
    · exact hs2 h
  · intro hmem
    simp only [List.mem_cons] at hmem
    rcases hmem with h | h | h | h | h | h
    · exact append_nodetool_ne _ _ (by decide) h.symm
    · exact absurd h (by decide)
    · exact hh3 h.symm
    · exact absurd h (by decide)
    · exact hp3 h.symm
    · exact hs3 h

theorem no_auth_flags_without_username_witness :
    "--username".data ∉
        splitSp ((NodeToolCmd.mk "localhost" 7199 (Option.some "secret")
          (Option.some "pwfile.txt") Option.none Option.none).nodetool_cmd "verify").data ∧
      "--password".data ∉
        splitSp ((NodeToolCmd.mk "localhost" 7199 (Option.some "secret")
          (Option.some "pwfile.txt") Option.none Option.none).nodetool_cmd "verify").data ∧
      "--password-file".data ∉
        splitSp ((NodeToolCmd.mk "localhost" 7199 (Option.some "secret")
          (Option.some "pwfile.txt") Option.none Option.none).nodetool_cmd "verify").data :=
  no_auth_flags_without_username _ "verify" rfl (by decide) (by decide) (by decide)
    (by decide) (by decide) (by decide) (by decide) (by decide) (by decide) (by decide)
    (by decide) (by decide)

/-- Whatever the credential parameters are, the built command is the
normalized path, then the binary name `nodetool`, then the rest. -/
lemma nodetool_cmd_shape (s : NodeToolCmd) (sub : String) :
    ∃ R : List Char, (s.nodetool_cmd sub).data =
      (normalizedPath s.nodetool_path).data ++ ("nodetool".data ++ R) := by
  cases hu : s.username with
  | none =>
    exact ⟨" --host ".data ++ s.host.data ++ " --port ".data ++ (toString s.port).data ++
      spc :: sub.data,
      by simp [NodeToolCmd.nodetool_cmd, hu, String.data_append, dataNodHost, dataSp,
        List.append_assoc] <;> decide⟩
  | some u =>
    cases hf : s.password_file with
    | some f =>
      exact ⟨" --host ".data ++ s.host.data ++ " --port ".data ++ (toString s.port).data ++
        " --username ".data ++ u.data ++ " --password-file ".data ++ f.data ++ spc :: sub.data,
        by simp [NodeToolCmd.nodetool_cmd, hu, hf, String.data_append, dataNodHost, dataSp,
          List.append_assoc] <;> decide⟩
    | none =>
      exact ⟨" --host ".data ++ s.host.data ++ " --port ".data ++ (toString s.port).data ++
        " --username ".data ++ u.data ++ " --password ".data ++ sQuoteC ::
          ((pyFormatOptStr s.password).data ++ sQuoteC :: spc :: sub.data),
        by simp [NodeToolCmd.nodetool_cmd, hu, hf, String.data_append, dataNodHost, dataSp,
          dataSQuote, List.append_assoc] <;> decide⟩

/-- C4: a non-empty `nodetool_path` not ending in `/` gets exactly one
separator appended before the binary name; a value already ending in `/`
never produces a doubled separator (the source in fact resets such a
value to the empty string, so no separator at all is emitted). -/
theorem nodetool_path_separator_normalization (s : NodeToolCmd) (p sub : String) :
    (s.nodetool_path = Option.some p → p.data ≠ [] → endsWithSlash p = false →
        normalizedPath s.nodetool_path = p ++ "/" ∧
          ∃ rest, (s.nodetool_cmd sub).data = p.data ++ slash :: ("nodetool".data ++ rest)) ∧
      (endsWithSlash p = true →
        ∀ l, (normalizedPath (Option.some p)).data ≠ l ++ [slash, slash]) := by
  constructor
  · intro hp hne hsl
    have hlen : 0 < p.data.length := List.length_pos.2 hne
    have hn : normalizedPath s.nodetool_path = p ++ "/" := by
      rw [hp]
      show (if 0 < p.data.length ∧ endsWithSlash p = false then p ++ "/" else "") = p ++ "/"
      exact if_pos ⟨hlen, hsl⟩
    refine ⟨hn, ?_⟩
    obtain ⟨R, hR⟩ := nodetool_cmd_shape s sub
    refine ⟨R, ?_⟩
    rw [hR, hn]
    simp [String.data_append, dataSlash, List.append_assoc] <;> decide
  · intro hsl l
    have hn : normalizedPath (Option.some p) = "" := by
      simp [normalizedPath, hsl]
    rw [hn]
    intro hcontra
    simp at hcontra

theorem nodetool_path_separator_normalization_witness :
    normalizedPath (Option.some "/usr/bin") = "/usr/bin" ++ "/" ∧
      (normalizedPath (Option.some "/opt/")).data ≠ [] ++ [slash, slash] :=
  ⟨((nodetool_path_separator_normalization
        (NodeToolCmd.mk "localhost" 7199 Option.none Option.none Option.none
          (Option.some "/usr/bin")) "/usr/bin" "verify").1 rfl (by decide) (by decide)).1,
    (nodetool_path_separator_normalization
        (NodeToolCmd.mk "localhost" 7199 Option.none Option.none Option.none
          (Option.some "/opt/")) "/opt/" "verify").2 (by decide) []⟩

/-- C5: with `nodetool_path` unset (or empty) the built command starts
with the bare binary name `nodetool`, no leading path. -/
theorem unset_nodetool_path_bare_binary (s : NodeToolCmd) (sub : String)
    (h : s.nodetool_path = Option.none ∨ s.nodetool_path = Option.some "") :
    normalizedPath s.nodetool_path = "" ∧
      ∃ rest, (s.nodetool_cmd sub).data = "nodetool".data ++ rest := by
  have hn : normalizedPath s.nodetool_path = "" := by
    rcases h with h | h <;> rw [h] <;> simp [normalizedPath]
  obtain ⟨R, hR⟩ := nodetool_cmd_shape s sub
  refine ⟨hn, R, ?_⟩
  rw [hR, hn]
  rfl

theorem unset_nodetool_path_bare_binary_witness :
    (normalizedPath ((NodeToolCmd.mk "localhost" 7199 Option.none Option.none Option.none
          Option.none).nodetool_path) = "" ∧
        ∃ rest, ((NodeToolCmd.mk "localhost" 7199 Option.none Option.none Option.none
          Option.none).nodetool_cmd "verify").data = "nodetool".data ++ rest) ∧
      (normalizedPath ((NodeToolCmd.mk "localhost" 7199 Option.none Option.none Option.none
          (Option.some "")).nodetool_path) = "" ∧
        ∃ rest, ((NodeToolCmd.mk "localhost" 7199 Option.none Option.none Option.none
          (Option.some "")).nodetool_cmd "verify").data = "nodetool".data ++ rest) :=
  ⟨unset_nodetool_path_bare_binary _ "verify" (Or.inl rfl),
    unset_nodetool_path_bare_binary _ "verify" (Or.inr rfl)⟩

/-- C6: with `username` set, `password_file` unset and `password` set,
the rendered command contains ` --password '<password>' ` with the
password value wrapped verbatim (no escaping) in single quotes. -/
theorem password_single_quoted (s : NodeToolCmd) (u pw sub : String)
    (hu : s.username = Option.some u) (hf : s.password_file = Option.none)
    (hp : s.password = Option.some pw) :
    ∃ pre, (s.nodetool_cmd sub).data =
      pre ++ spc :: ("--password".data ++ spc :: sQuoteC ::
        (pw.data ++ sQuoteC :: spc :: sub.data)) := by
  refine ⟨(normalizedPath s.nodetool_path).data ++ "nodetool --host ".data ++ s.host.data ++
    " --port ".data ++ (toString s.port).data ++ " --username ".data ++ u.data, ?_⟩
  simp [NodeToolCmd.nodetool_cmd, hu, hf, hp, pyFormatOptStr, dataSQuote, dataPwSplit,
    dataSp, String.data_append, List.append_assoc] <;> decide

theorem password_single_quoted_witness :
    ∃ pre, ((NodeToolCmd.mk "localhost" 7199 (Option.some "secret") Option.none
        (Option.some "admin") Option.none).nodetool_cmd "verify").data =
      pre ++ spc :: ("--password".data ++ spc :: sQuoteC ::
        ("secret".data ++ sQuoteC :: spc :: "verify".data)) :=
  password_single_quoted _ "admin" "secret" "verify" rfl rfl rfl

/-- C9: with `username` set but both `password` and `password_file`
unset, the command still carries a ` --password 'None' ` fragment: the
unset password is rendered as the literal string `None`. -/
theorem unset_password_renders_None (s : NodeToolCmd) (u sub : String)
    (hu : s.username = Option.some u) (hf : s.password_file = Option.none)
    (hp : s.password = Option.none) :
    ∃ pre, (s.nodetool_cmd sub).data =
      pre ++ spc :: ("--password".data ++ spc :: sQuoteC ::
        ("None".data ++ sQuoteC :: spc :: sub.data)) := by
  refine ⟨(normalizedPath s.nodetool_path).data ++ "nodetool --host ".data ++ s.host.data ++
    " --port ".data ++ (toString s.port).data ++ " --username ".data ++ u.data, ?_⟩
  simp [NodeToolCmd.nodetool_cmd, hu, hf, hp, pyFormatOptStr, dataSQuote, dataPwSplit,
    dataSp, String.data_append, List.append_assoc] <;> decide

theorem unset_password_renders_None_witness :
    ∃ pre, ((NodeToolCmd.mk "localhost" 7199 Option.none Option.none
        (Option.some "admin") Option.none).nodetool_cmd "verify").data =
      pre ++ spc :: ("--password".data ++ spc :: sQuoteC ::
        ("None".data ++ sQuoteC :: spc :: "verify".data)) :=
  unset_password_renders_None _ "admin" "verify" rfl rfl rfl

lemma init_host_none (p : ModuleParams) (fqdn : String) (h : p.host = Option.none) :
    (NodeToolCmd.init p fqdn).host = fqdn := by
  simp [NodeToolCmd.init, h]

lemma init_host_some (p : ModuleParams) (fqdn x : String) (h : p.host = Option.some x) :
    (NodeToolCmd.init p fqdn).host = x := by
  simp [NodeToolCmd.init, h]

/-- Whatever the credentials and path are, the built command carries the
contiguous fragment ` --host <host> --port <port> `. -/
lemma nodetool_cmd_host_port (s : NodeToolCmd) (sub : String) :
    ∃ pre post, (s.nodetool_cmd sub).data =
      pre ++ spc :: ("--host".data ++ spc :: (s.host.data ++
        spc :: ("--port".data ++ spc :: ((toString s.port).data ++ post)))) := by
  cases hu : s.username with
  | none =>
    exact ⟨(normalizedPath s.nodetool_path).data ++ "nodetool".data, spc :: sub.data,
      by simp [NodeToolCmd.nodetool_cmd, hu, dataNodHostSplit, dataPortSplit, dataSp,
        String.data_append, List.append_assoc] <;> decide⟩
  | some u =>
    cases hf : s.password_file with
    | some f =>
      exact ⟨(normalizedPath s.nodetool_path).data ++ "nodetool".data,
        spc :: ("--username".data ++ spc :: (u.data ++ spc :: ("--password-file".data ++
          spc :: (f.data ++ spc :: sub.data)))),
        by simp [NodeToolCmd.nodetool_cmd, hu, hf, dataNodHostSplit, dataPortSplit,
          dataUserSplit, dataPwfSplit, dataSp, String.data_append,
          List.append_assoc] <;> decide⟩
    | none =>
      exact ⟨(normalizedPath s.nodetool_path).data ++ "nodetool".data,
        spc :: ("--username".data ++ spc :: (u.data ++ spc :: ("--password".data ++
          spc :: sQuoteC :: ((pyFormatOptStr s.password).data ++ sQuoteC :: spc :: sub.data)))),
        by simp [NodeToolCmd.nodetool_cmd, hu, hf, dataNodHostSplit, dataPortSplit,
          dataUserSplit, dataPwSplit, dataSp, dataSQuote, String.data_append,
          List.append_assoc] <;> decide⟩

/-- C8 (amended): provided the `host` parameter, when set, is non-empty
and the local FQDN is non-empty, the host value at command-build time is
non-empty; an unset `host` parameter is replaced by the FQDN; and the
built command always contains ` --host <host> --port <port> `. -/
theorem host_fallback_and_presence (p : ModuleParams) (fqdn sub : String)
    (hset : ∀ h, p.host = Option.some h → h ≠ "") (hfq : fqdn ≠ "") :
    (NodeToolCmd.init p fqdn).host ≠ "" ∧
      (p.host = Option.none → (NodeToolCmd.init p fqdn).host = fqdn) ∧
      ∃ pre post, ((NodeToolCmd.init p fqdn).nodetool_cmd sub).data =
        pre ++ spc :: ("--host".data ++ spc :: ((NodeToolCmd.init p fqdn).host.data ++
          spc :: ("--port".data ++ spc :: ((toString p.port).data ++ post)))) := by
  refine ⟨?_, fun h => init_host_none p fqdn h, ?_⟩
  · cases hh : p.host with
    | none => rw [init_host_none p fqdn hh]; exact hfq
    | some x => rw [init_host_some p fqdn x hh]; exact hset x hh
  · exact nodetool_cmd_host_port (NodeToolCmd.init p fqdn) sub

theorem host_fallback_and_presence_witness :
    (NodeToolCmd.init (ModuleParams.mk Option.none 7199 Option.none Option.none Option.none
        Option.none TableParam.none false Option.none) "node1.example.com").host ≠ "" ∧
      ((ModuleParams.mk Option.none 7199 Option.none Option.none Option.none
          Option.none TableParam.none false Option.none).host = Option.none →
        (NodeToolCmd.init (ModuleParams.mk Option.none 7199 Option.none Option.none Option.none
          Option.none TableParam.none false Option.none) "node1.example.com").host =
          "node1.example.com") ∧
      ∃ pre post, ((NodeToolCmd.init (ModuleParams.mk Option.none 7199 Option.none Option.none
          Option.none Option.none TableParam.none false Option.none)
            "node1.example.com").nodetool_cmd "verify").data =
        pre ++ spc :: ("--host".data ++ spc ::
          ((NodeToolCmd.init (ModuleParams.mk Option.none 7199 Option.none Option.none
            Option.none Option.none TableParam.none false Option.none)
              "node1.example.com").host.data ++
          spc :: ("--port".data ++ spc :: ((toString (7199 : Int)).data ++ post)))) :=
  host_fallback_and_presence _ "node1.example.com" "verify" (by simp) (by decide)

/-- C8, counterexample to the claim as stated: when the `host` parameter
is supplied as the empty string, the `host is None` fallback does not
fire and the host value at command-build time is empty — so it is not
true that the host is non-empty for every invocation. -/
theorem empty_host_param_counterexample :
    (NodeToolCmd.init (ModuleParams.mk (Option.some "") 7199 Option.none Option.none
      Option.none Option.none TableParam.none false Option.none) "node1.example.com").host =
      "" := rfl

/-- C1: the reported result has `changed = true` and the success message
exactly when the return code is 0; otherwise `changed = false`, the
failure message, and `rc` equal to the return code; the `rc` key is
present exactly when the return code is non-zero. -/
theorem result_status_and_rc (rc : Int) (out err : String) :
    (((mainResult rc out err).changed = true ∧
        (mainResult rc out err).msg = "nodetool verify executed successfully") ↔ rc = 0) ∧
      (rc ≠ 0 →
        (mainResult rc out err).changed = false ∧
          (mainResult rc out err).msg = "nodetool verify did not execute successfully" ∧
          (mainResult rc out err).rc = Option.some rc) ∧
      ((mainResult rc out err).rc = Option.none ↔ rc = 0) := by
  by_cases h : rc = 0 <;> simp [mainResult, h]

theorem result_status_and_rc_witness :
    (mainResult 1 "" "corrupt").changed = false ∧
      (mainResult 1 "" "corrupt").msg = "nodetool verify did not execute successfully" ∧
      (mainResult 1 "" "corrupt").rc = Option.some 1 :=
  (result_status_and_rc 1 "" "corrupt").2.1 (by decide)

lemma string_eq_empty_iff (s : String) : s = "" ↔ s.data = [] := by
  constructor
  · intro h; rw [h]
  · intro h; apply String.ext; rw [h]

lemma dropWhile_head_not (p : Char → Bool) (l : List Char) (c : Char)
    (h : (l.dropWhile p).head? = Option.some c) : p c = false := by
  induction l with
  | nil => simp at h
  | cons a as ih =>
    rw [List.dropWhile_cons] at h
    by_cases ha : p a = true
    · rw [if_pos ha] at h; exact ih h
    · rw [if_neg ha] at h
      simp only [List.head?_cons, Option.some.injEq] at h
      subst h
      exact Bool.eq_false_iff.2 ha

/-- `pyStripData l` is a prefix of the list with only leading whitespace
dropped. -/
lemma pyStripData_isPre (l : List Char) : pyStripData l <+: l.dropWhile isPySpace := by
  apply List.reverse_suffix.mp
  unfold pyStripData
  rw [List.reverse_reverse]
  exact List.dropWhile_suffix _

lemma pyStripData_infix (l : List Char) : pyStripData l <:+: l :=
  (pyStripData_isPre l).isInfix.trans (List.dropWhile_suffix isPySpace).isInfix

lemma pyStripData_head (l : List Char) (c : Char)
    (h : (pyStripData l).head? = Option.some c) : isPySpace c = false := by
  obtain ⟨r, hr⟩ := pyStripData_isPre l
  apply dropWhile_head_not isPySpace l c
  rw [← hr]
  cases hd : pyStripData l with
  | nil => rw [hd] at h; simp at h
  | cons a t =>
    rw [hd] at h
    simp only [List.head?_cons, Option.some.injEq] at h
    simpa using h

lemma pyStripData_getLast (l : List Char) (c : Char)
    (h : (pyStripData l).getLast? = Option.some c) : isPySpace c = false := by
  have hdef : pyStripData l =
      ((l.dropWhile isPySpace).reverse.dropWhile isPySpace).reverse := rfl
  rw [hdef, List.getLast?_reverse] at h
  exact dropWhile_head_not isPySpace _ c h

lemma pyStrip_data (s : String) : (pyStrip s).data = pyStripData s.data := rfl

/-- The common specification of one reported output field. -/
lemma strip_field_spec (orig : String) (fld : Option String)
    (hf : fld = if (pyStrip orig).data = [] then Option.none else Option.some (pyStrip orig)) :
    (fld = Option.none ↔ pyStrip orig = "") ∧
      ∀ s, fld = Option.some s →
        s = pyStrip orig ∧ s.data <:+: orig.data ∧
          (∀ c, s.data.head? = Option.some c → isPySpace c = false) ∧
          (∀ c, s.data.getLast? = Option.some c → isPySpace c = false) := by
  constructor
  · rw [hf]
    by_cases h : (pyStrip orig).data = [] <;> simp [h, string_eq_empty_iff]
  · intro s hs
    rw [hf] at hs
    by_cases h : (pyStrip orig).data = []
    · rw [if_pos h] at hs; exact absurd hs (by simp)
    · rw [if_neg h] at hs
      simp only [Option.some.injEq] at hs
      subst hs
      refine ⟨rfl, ?_, ?_, ?_⟩
      · rw [pyStrip_data]; exact pyStripData_infix orig.data
      · intro c hc; rw [pyStrip_data] at hc; exact pyStripData_head orig.data c hc
      · intro c hc; rw [pyStrip_data] at hc; exact pyStripData_getLast orig.data c hc

/-- C7: the reported `stdout` / `stderr` values are the captured streams
with leading and trailing whitespace stripped (each reported value is an
infix of the captured stream with no whitespace at either end), and each
field is omitted exactly when it is empty after stripping. -/
theorem output_trimming_and_omission (rc : Int) (out err : String) :
    ((mainResult rc out err).stdout = Option.none ↔ pyStrip out = "") ∧
      (∀ s, (mainResult rc out err).stdout = Option.some s →
        s = pyStrip out ∧ s.data <:+: out.data ∧
          (∀ c, s.data.head? = Option.some c → isPySpace c = false) ∧
          (∀ c, s.data.getLast? = Option.some c → isPySpace c = false)) ∧
      ((mainResult rc out err).stderr = Option.none ↔ pyStrip err = "") ∧
      (∀ s, (mainResult rc out err).stderr = Option.some s →
        s = pyStrip err ∧ s.data <:+: err.data ∧
          (∀ c, s.data.head? = Option.some c → isPySpace c = false) ∧
          (∀ c, s.data.getLast? = Option.some c → isPySpace c = false)) := by
  have hso : (mainResult rc out err).stdout =
      if (pyStrip out).data = [] then Option.none else Option.some (pyStrip out) := by
    by_cases h : rc = 0 <;> simp [mainResult, h]
  have hse : (mainResult rc out err).stderr =
      if (pyStrip err).data = [] then Option.none else Option.some (pyStrip err) := by
    by_cases h : rc = 0 <;> simp [mainResult, h]
  obtain ⟨ho1, ho2⟩ := strip_field_spec out _ hso
  obtain ⟨he1, he2⟩ := strip_field_spec err _ hse
  exact ⟨ho1, ho2, he1, he2⟩

theorem output_trimming_and_omission_witness :
    "OK" = pyStrip " OK " ∧ "OK".data <:+: " OK ".data ∧
      isPySpace (Char.ofNat 79) = false ∧ isPySpace (Char.ofNat 75) = false := by
  have h := (output_trimming_and_omission 0 " OK " "err").2.1 "OK" (by decide)
  exact ⟨h.1, h.2.1, h.2.2.1 (Char.ofNat 79) (by decide), h.2.2.2 (Char.ofNat 75) (by decide)⟩

/-- C3: a `table` parameter given as the sequence `[a, b, c]` is rendered
as the fragment ` a b c` appended to the sub-command built without a
table: single-space joined, order preserved, no deduplication, no
sorting, no extra spaces. -/
theorem table_list_rendering (p : ModuleParams) (cmd a b c : String)
    (ht : p.table = TableParam.list [a, b, c]) :
    buildVerifyCmd p cmd =
      buildVerifyCmd { p with table := TableParam.none } cmd ++
        " " ++ a ++ " " ++ b ++ " " ++ c := by
  apply String.ext
  simp [buildVerifyCmd, ht, pyJoin, String.data_append, List.append_assoc]

theorem table_list_rendering_witness :
    buildVerifyCmd (ModuleParams.mk Option.none 7199 Option.none Option.none Option.none
        (Option.some "ks") (TableParam.list ["t1", "t2", "t1"]) true Option.none) "verify" =
      buildVerifyCmd { ModuleParams.mk Option.none 7199 Option.none Option.none Option.none
          (Option.some "ks") (TableParam.list ["t1", "t2", "t1"]) true Option.none with
            table := TableParam.none } "verify" ++ " " ++ "t1" ++ " " ++ "t2" ++ " " ++ "t1" :=
  table_list_rendering _ "verify" "t1" "t2" "t1" rfl
